import Mathlib

/-!
# Verification of the douban-archive-migrator pipeline core

A shallow embedding, in Lean 4, of the pure decision logic of the four
scripts of the repository (`douban_crawl.py`, `douban_translate.py`,
`search.py`, `import_data.py`), together with proofs of the behavioural
properties stated in the specification.

Modelling conventions:
* Python strings are `String`; `str.strip()` is modelled by `pyStrip`,
  which removes the usual Python whitespace characters from both ends.
* Python `None`-able values are `Option`; Python's truthiness-based
  `a or b` chains on strings are modelled explicitly (`pyOrStr`).
* A parsed JSON value (the result of a successful `json.loads`) is the
  inductive `PyVal`; an LLM completion call is an oracle returning
  `Except Unit _`, where `Except.error` stands for a raised exception
  (transport failure, or — for the structured call — a `json.loads`
  parse failure, both of which land in the same `except` handler).
* `re.search(r"rating(\d+)-t", c)` is modelled by a left-to-right scan
  (`findRating`) over the character list; `\d` is modelled as an ASCII
  digit.
* Python dicts used as string-to-string mappings are association lists
  (`lookupA` / `insertA`, first binding wins, insertion preserves order).
-/

/-- Characters removed by Python's `str.strip()` (the common ones; the
model covers ASCII whitespace plus NEL, NBSP and the ideographic space). -/
def isPySpace (c : Char) : Bool :=
  c = ' ' || c = '\t' || c = '\n' || c = '\r' || c = '\x0b' || c = '\x0c' ||
  c = '\u0085' || c = ' ' || c = '　'

def trimCharsList (g : List Char) : List Char :=
  ((g.dropWhile isPySpace).reverse.dropWhile isPySpace).reverse

/-- Model of Python `str.strip()`. -/
def pyStrip (s : String) : String :=
  String.mk (trimCharsList s.toList)

/-- Split a character list at every character satisfying `p` (each
separator character produces a boundary, so consecutive separators yield
empty groups — exactly like `re.split` on a single-character class). -/
def splitList (p : Char → Bool) : List Char → List (List Char)
  | [] => [[]]
  | c :: cs =>
    if p c then [] :: splitList p cs
    else
      match splitList p cs with
      | g :: gs => (c :: g) :: gs
      | [] => [[c]]

/-- Python `a or b` on two optional strings (`None` and `""` are falsy). -/
def pyOrOpt (a b : Option String) : Option String :=
  match a with
  | some s => if s ≠ "" then some s else b
  | none => b

/-- Python `(a or b or "")` on two optional strings. -/
def pyOrStr (a b : Option String) : String :=
  (pyOrOpt a b).getD ""

/-- Association-list lookup (first binding wins), the model of `d[k]` /
`k in d` on a Python string dict. -/
def lookupA : List (String × String) → String → Option String
  | [], _ => none
  | (k, v) :: rest, key => if k = key then some v else lookupA rest key

/-- Association-list update, the model of `d[k] = v` on a Python dict:
an existing binding is updated in place, a new key is appended. -/
def insertA (m : List (String × String)) (k v : String) : List (String × String) :=
  if (lookupA m k).isSome then
    m.map (fun p => if p.1 = k then (k, v) else p)
  else
    m ++ [(k, v)]

/-! ## douban_crawl.py -/

/-- Digit-list to the integer Python's `int()` reads from it. -/
def digitsToNat (ds : List Char) : Nat :=
  ds.foldl (fun a c => a * 10 + (c.toNat - '0'.toNat)) 0

/-- One anchored attempt of `re.search(r"rating(\d+)-t", _)` at the head
of `s`: the literal `rating`, then a maximal nonempty digit run (the
captured group), then the literal `-t`. -/
def matchRatingAt (s : List Char) : Option Nat :=
  if s.take 6 = "rating".toList then
    let rest := s.drop 6
    let ds := rest.takeWhile Char.isDigit
    if ds = [] then none
    else if (rest.drop ds.length).take 2 = ['-', 't'] then some (digitsToNat ds)
    else none
  else none

/-- `re.search(r"rating(\d+)-t", c)` followed by `int(m.group(1))`:
scan start positions left to right, return the first anchored match. -/
def findRating : List Char → Option Nat
  | [] => none
  | c :: rest =>
    match matchRatingAt (c :: rest) with
    | some n => some n
    | none => findRating rest

/-- `extract_rating_from_classes`: first class token containing a
`rating(\d+)-t` match decides the value; `None` when no token matches. -/
def extractRatingFromClasses : List String → Option Nat
  | [] => none
  | c :: cs =>
    match findRating c.toList with
    | some n => some n
    | none => extractRatingFromClasses cs

/-- The per-item rating logic of `parse_book_collect_page` /
`parse_movie_collect_page`: when a rating-bearing descendant exists its
classes are consulted first, and the item's own classes only when that
yields `None`. -/
def itemRating (ratingSpanClasses : Option (List String)) (ownClasses : List String) :
    Option Nat :=
  match (match ratingSpanClasses with
         | some cls => extractRatingFromClasses cls
         | none => none) with
  | some r => some r
  | none => extractRatingFromClasses ownClasses

/-- The separator class of `split_people`'s regex `[、/,，；;]+`. -/
def isSep (c : Char) : Bool :=
  c = '、' || c = '/' || c = ',' || c = '，' || c = '；' || c = ';'

/-- `split_people`: split on the separator class, strip each part,
drop empty parts (splitting on runs and then dropping empties agrees
with splitting on single separators and then dropping empties). -/
def splitPeople (text : String) : List String :=
  if text = "" then []
  else
    (((splitList isSep text.toList).map (fun g => pyStrip (String.mk g))).filter
      (fun s => s ≠ ""))

/-- The separator class of `detect_english_from_title`'s regex `[／/|]`. -/
def isAliasSep (c : Char) : Bool :=
  c = '／' || c = '/' || c = '|'

/-- `re.search(r"[A-Za-z]", p)` as a Boolean. -/
def hasLatin (s : String) : Bool :=
  s.toList.any (fun c => ('A' ≤ c && c ≤ 'Z') || ('a' ≤ c && c ≤ 'z'))

/-- `detect_english_from_title`: split the raw title on `［／/|］`, strip
and drop empty parts, return the first part containing a Latin letter. -/
def detectEnglishFromTitle (raw : String) : Option String :=
  if raw = "" then none
  else
    (((splitList isAliasSep raw.toList).map (fun g => pyStrip (String.mk g))).filter
      (fun s => s ≠ "")).find? hasLatin

/-! ## douban_translate.py -/

/-- A parsed JSON value, the possible results of a successful
`json.loads` on the structured completion's content. -/
inductive PyVal where
  | null : PyVal
  | bool (b : Bool) : PyVal
  | int (n : Int) : PyVal
  | str (s : String) : PyVal
  | list (l : List PyVal) : PyVal
  | dict (l : List (String × PyVal)) : PyVal

/-- Python truthiness of a parsed JSON value. -/
def pyTruthy : PyVal → Bool
  | .null => false
  | .bool b => b
  | .int n => n != 0
  | .str s => s ≠ ""
  | .list l => !l.isEmpty
  | .dict l => !l.isEmpty

/-- `data.get(k)` on a parsed JSON dict: `None` when the key is absent. -/
def dictGet : List (String × PyVal) → String → PyVal
  | [], _ => .null
  | (k, v) :: rest, key => if k = key then v else dictGet rest key

/-- `(data.get(k) or "").strip()`: `none` models the `AttributeError`
raised when the truthy value is not a string. -/
def getStrField (d : List (String × PyVal)) (k : String) : Option String :=
  let v := dictGet d k
  let v' := if pyTruthy v then v else .str ""
  match v' with
  | .str s => some (pyStrip s)
  | _ => none

/-- A free-text completion oracle (`chat.completions.create` returning
the message content, or raising). -/
def TextOracle := String → Except Unit String

/-- The structured completion oracle, a function of the payload fields
`(category, title_zh, comment_zh, people)`; `Except.error` covers a
transport error and a `json.loads` failure on the returned content. -/
def StructOracle := String → String → String → List String → Except Unit PyVal

/-- `translate_text`: empty-after-strip input short-circuits to `""`
without any completion call; otherwise the oracle's content, stripped
(an oracle exception propagates). -/
def translateText (orv : TextOracle) (text : String) : Except Unit String :=
  if pyStrip text = "" then .ok ""
  else
    match orv text with
    | .ok content => .ok (pyStrip content)
    | .error e => .error e

/-- `translate_people_list`: skip names that are empty after strip; per
name, the oracle's stripped content, degrading to the stripped original
name when that single call raises. -/
def translatePeopleList (opn : TextOracle) : List String → List String
  | [] => []
  | p :: rest =>
    let name := pyStrip p
    if name = "" then translatePeopleList opn rest
    else
      (match opn name with
       | .ok c => pyStrip c
       | .error _ => name) :: translatePeopleList opn rest

/-- The structured call of `translate_title_and_comment` with the
payload's `category or "work"` default. -/
def structCall (oS : StructOracle) (title comment category : String)
    (people : List String) : Except Unit PyVal :=
  oS (if category = "" then "work" else category) title comment people

/-- The outcome of the `try` block of `translate_title_and_comment`:
`some (title_en, comment_en, people_en)` when the oracle call, the JSON
parse and the field accesses all succeed, `none` when any of them raises
(transport error, parse failure, non-dict value, or a truthy non-string
`title_en`/`comment_en` whose `.strip()` raises). -/
def structuredResult (resp : Except Unit PyVal) :
    Option (String × String × List String) :=
  match resp with
  | .error _ => none
  | .ok v =>
    match v with
    | .dict d =>
      match getStrField d "title_en", getStrField d "comment_en" with
      | some t, some c =>
        let ps :=
          match dictGet d "people_en" with
          | .list l =>
            l.filterMap (fun p => match p with | .str s => some (pyStrip s) | _ => none)
          | _ => []
        some (t, c, ps)
      | _, _ => none
    | _ => none

/-- The fallback path of `translate_title_and_comment`: independent
free-text translation of title and comment, empty people list; a raise
inside either free-text call propagates. -/
def fallbackTranslate (orv : TextOracle) (title comment : String) :
    Except Unit (String × String × List String) :=
  match translateText orv title with
  | .error e => .error e
  | .ok t =>
    match translateText orv comment with
    | .error e => .error e
    | .ok c => .ok (t, c, [])

/-- `translate_title_and_comment`: the structured try block when it
succeeds, otherwise per-field free-text fallback with empty `people_en`. -/
def translateTitleAndComment (oS : StructOracle) (orv : TextOracle)
    (title comment category : String) (people : List String) :
    Except Unit (String × String × List String) :=
  match structuredResult (structCall oS title comment category people) with
  | some r => .ok r
  | none =>
    match translateText orv title with
    | .error e => .error e
    | .ok t =>
      match translateText orv comment with
      | .error e => .error e
      | .ok c => .ok (t, c, [])

/-- One raw input item of `translate_all` (a parsed element of the raw
JSON list; absent keys are `none`; `rating` is `some` exactly when the
JSON value is an integer). -/
structure RawItem where
  category : Option String
  title_zh : Option String
  comment_zh : Option String
  authors_zh : Option (List String)
  directors_zh : Option (List String)
  subject_url : Option String
  rating : Option Int
deriving DecidableEq

def itemCategory (item : RawItem) : String := pyStrip (item.category.getD "")
def itemTitleZh (item : RawItem) : String := pyStrip (item.title_zh.getD "")
def itemCommentZh (item : RawItem) : String := pyStrip (item.comment_zh.getD "")

/-- The people list `translate_all` feeds the translator: authors for
books, directors for movies, nothing otherwise. -/
def itemPeople (item : RawItem) : List String :=
  if itemCategory item = "book" then item.authors_zh.getD []
  else if itemCategory item = "movie" then item.directors_zh.getD []
  else []

/-- One translated output record of `translate_all` (the `author` /
`director` key is `people_joined`, present only for books and movies). -/
structure OutRecord where
  category : String
  title : String
  comment : String
  rating : Option Int
  subject_url : String
  people_joined : Option String
deriving DecidableEq

/-- The `except` handler of `translate_all` around the translation call:
a raised exception yields empty title and comment and (via the missing
`people_en` key) an empty people list. -/
def catchTrans : Except Unit (String × String × List String) →
    String × String × List String
  | .ok r => r
  | .error _ => ("", "", [])

/-- The record-assembly tail of the `translate_all` loop body (detected
English alias override for movies, per-name people fallback when the
translated people list is empty, `" / "` join). -/
def assembleOut (opn : TextOracle) (item : RawItem)
    (tr : String × String × List String) : OutRecord :=
  let cat := itemCategory item
  let detected := if cat = "movie" then detectEnglishFromTitle (itemTitleZh item) else none
  let titleFinal :=
    match detected with
    | some d => if d ≠ "" then d else tr.1
    | none => tr.1
  let names :=
    if tr.2.2 ≠ [] then tr.2.2 else translatePeopleList opn (itemPeople item)
  { category := cat
    title := titleFinal
    comment := tr.2.1
    rating := item.rating
    subject_url := item.subject_url.getD ""
    people_joined :=
      if cat = "book" then some (String.intercalate " / " names)
      else if cat = "movie" then some (String.intercalate " / " names)
      else none }

/-- The whole `translate_all` loop body for one item — a total function:
every completion failure is absorbed by a fallback or a handler. -/
def processItem (oS : StructOracle) (orv : TextOracle) (opn : TextOracle)
    (item : RawItem) : OutRecord :=
  assembleOut opn item
    (catchTrans
      (translateTitleAndComment oS orv (itemTitleZh item) (itemCommentZh item)
        (itemCategory item) (itemPeople item)))

/-! ## search.py -/

/-- A search oracle: the outcome of `search_goodreads` / `search_imdb`
for a `(title, person)` query — the target URL, or `None` when the fetch
failed or no result anchor was found. -/
def SearchOracle := String → String → Option String

/-- One translated book item as read by `build_goodreads_mapping`. -/
structure GrItem where
  subject_url : Option String
  title : Option String
  title_en : Option String
  author : Option String
deriving DecidableEq

def grTitle (item : GrItem) : String := pyOrStr item.title item.title_en
def grAuthor (item : GrItem) : String := item.author.getD ""

/-- One translated movie item as read by `build_imdb_mapping`. -/
structure ImdbItem where
  subject_url : Option String
  title : Option String
  title_en : Option String
  director : Option String
deriving DecidableEq

def imdbTitle (item : ImdbItem) : String := pyOrStr item.title item.title_en
def imdbDirector (item : ImdbItem) : String := item.director.getD ""

/-- The resolver state: the mapping being built, plus the log of
`(title, person)` queries actually issued (instrumentation standing for
"a search request was made"). -/
def ResolveState := List (String × String) × List (String × String)

/-- One iteration of the `build_goodreads_mapping` loop: skip items
without a truthy `subject_url`, skip (without querying) items already
mapped when not overwriting, otherwise query and record a truthy result. -/
def grStep (search : SearchOracle) (overwrite : Bool) (st : ResolveState)
    (item : GrItem) : ResolveState :=
  match item.subject_url with
  | none => st
  | some src =>
    if src = "" then st
    else if (lookupA st.1 src).isSome && !overwrite then st
    else
      let log := st.2 ++ [(grTitle item, grAuthor item)]
      match search (grTitle item) (grAuthor item) with
      | some t => if t ≠ "" then (insertA st.1 src t, log) else (st.1, log)
      | none => (st.1, log)

/-- `build_goodreads_mapping` (instrumented with the query log). -/
def buildGoodreadsMapping (search : SearchOracle) (items : List GrItem)
    (existing : List (String × String)) (overwrite : Bool) : ResolveState :=
  items.foldl (grStep search overwrite) (existing, [])

/-- One iteration of the `build_imdb_mapping` loop. -/
def imdbStep (search : SearchOracle) (overwrite : Bool) (st : ResolveState)
    (item : ImdbItem) : ResolveState :=
  match item.subject_url with
  | none => st
  | some src =>
    if src = "" then st
    else if (lookupA st.1 src).isSome && !overwrite then st
    else
      let log := st.2 ++ [(imdbTitle item, imdbDirector item)]
      match search (imdbTitle item) (imdbDirector item) with
      | some t => if t ≠ "" then (insertA st.1 src t, log) else (st.1, log)
      | none => (st.1, log)

/-- `build_imdb_mapping` (instrumented with the query log). -/
def buildImdbMapping (search : SearchOracle) (items : List ImdbItem)
    (existing : List (String × String)) (overwrite : Bool) : ResolveState :=
  items.foldl (imdbStep search overwrite) (existing, [])

/-! ## import_data.py -/

/-- One row of a parsed mapping file, as `load_mapping` reads it;
`none` stands for a list element that is not a JSON object. -/
structure MapRow where
  subject_url : Option String
  source : Option String
  target_url : Option String
  target : Option String

/-- `load_mapping` over the parsed rows: keep rows whose

`subject_url or source` and `target_url or target` are both truthy. -/
def loadMapping (rows : List (Option MapRow)) : List (String × String) :=
  rows.foldl
    (fun m r =>
      match r with
      | none => m
      | some row =>
        match pyOrOpt row.subject_url row.source, pyOrOpt row.target_url row.target with
        | some s, some d => if s ≠ "" ∧ d ≠ "" then insertA m s d else m
        | _, _ => m)
    []

/-- One translated item as the publisher reads it. -/
structure PubItem where
  subject_url : Option String
  comment : Option String
  comment_en : Option String
  rating : Option Int
  title : Option String
  title_en : Option String
  title_zh : Option String
deriving DecidableEq

/-- `get_target_url`: the mapping entry for a truthy `subject_url`. -/
def getTargetUrl (mapping : List (String × String)) (item : PubItem) :
    Option String :=
  match item.subject_url with
  | some s => if s ≠ "" then lookupA mapping s else none
  | none => none

/-- `convert_rating_for_goodreads`: clamp into 1–5, pass `None` through. -/
def convertRatingForGoodreads (rating : Option Int) : Option Int :=
  match rating with
  | none => none
  | some r => some (max 1 (min 5 r))

/-- `convert_rating_for_imdb`: clamp into 1–5 then double, pass `None`
through. -/
def convertRatingForImdb (rating : Option Int) : Option Int :=
  match rating with
  | none => none
  | some r => some (max 1 (min 5 r) * 2)

/-- A page oracle: which selectors the destination page resolves within
the per-candidate timeout (`page.click`/`page.fill` succeed on them and
raise on the rest). -/
def PageOracle := String → Bool

/-- `click_first_available`, instrumented with the list of candidates
actually attempted: try candidates in order, succeed on the first that
the page resolves. -/
def clickFirstAvailable (pm : PageOracle) : List String → Bool × List String
  | [] => (false, [])
  | sel :: rest =>
    if pm sel then (true, [sel])
    else
      let r := clickFirstAvailable pm rest
      (r.1, sel :: r.2)

/-- `fill_first_available`, instrumented the same way (the text plays no
part in whether a candidate resolves). -/
def fillFirstAvailable (pm : PageOracle) (sels : List String) (_text : String) :
    Bool × List String :=
  clickFirstAvailable pm sels

/-- One UI action the publisher attempts against the browser session. -/
inductive PubAction where
  | goto (url : String)
  | click (sel : String)
  | fill (sel : String) (text : String)
  | waitMs (n : Nat)
deriving DecidableEq

def clickTrace (pm : PageOracle) (sels : List String) : List PubAction :=
  (clickFirstAvailable pm sels).2.map PubAction.click

def fillTrace (pm : PageOracle) (sels : List String) (text : String) : List PubAction :=
  (fillFirstAvailable pm sels text).2.map (fun s => PubAction.fill s text)

def goodreadsOpenSelectors : List String :=
  ["a[href*='/review/new']", "a.writeReviewLink",
   "button[data-analytics-id='new_review']", "a[data-analytics-id='new_review']"]

def goodreadsRatingSelectors (r : Int) : List String :=
  ["#rating_star_" ++ toString r,
   "input[name=\"rating\"][value=\"" ++ toString r ++ "\"]",
   "input[name=\"review[rating]\"][value=\"" ++ toString r ++ "\"]",
   "label[for=\"review_rating_" ++ toString r ++ "\"]"]

def goodreadsFillSelectors : List String :=
  ["#review_review_text", "textarea[name='review[review]']",
   "textarea#review_text", "textarea[id*='review']"]

def goodreadsSubmitSelectors : List String :=
  ["#review_submit", "input[type='submit'][value*='Save']",
   "button[type='submit']", "input[name='commit']", "button[name='commit']"]

def imdbRatingSelectors (r : Int) : List String :=
  ["button[aria-label='" ++ toString r ++ "']",
   "input[name='rating'][value='" ++ toString r ++ "']",
   "span.star-rating-icon"]

def imdbFillSelectors : List String := ["textarea", "textarea[name*='review']"]

def imdbSubmitSelectors : List String :=
  ["button[type='submit']", "input[type='submit']"]

/-- The `if rating:` guard followed by the rating-star click attempts
(the click result is ignored: `SET_RATING` is optional). -/
def ratingTrace (pm : PageOracle) (mkSels : Int → List String)
    (rating : Option Int) : List PubAction :=
  match rating with
  | some r => if r ≠ 0 then clickTrace pm (mkSels r) else []
  | none => []

/-- `post_goodreads_review` (with `open_goodreads_editor` inlined at its
only call): success flag and the trace of attempted UI actions; a
`False` from the comment fill or the submit click is the model of the
raised `RuntimeError`. -/
def postGoodreadsReview (pm : PageOracle) (target : String)
    (rating : Option Int) (comment : String) : Bool × List PubAction :=
  let opened := [PubAction.goto target] ++ clickTrace pm goodreadsOpenSelectors
  let rated := opened ++ ratingTrace pm goodreadsRatingSelectors rating
  let fillRes := fillFirstAvailable pm goodreadsFillSelectors comment
  let filledTrace := rated ++ fillTrace pm goodreadsFillSelectors comment
  if !fillRes.1 then (false, filledTrace)
  else
    let subRes := clickFirstAvailable pm goodreadsSubmitSelectors
    let subTrace := filledTrace ++ clickTrace pm goodreadsSubmitSelectors
    if !subRes.1 then (false, subTrace)
    else (true, subTrace ++ [PubAction.waitMs 2000])

/-- `post_imdb_review`: navigate directly, optional rating clicks,
mandatory fill and submit. -/
def postImdbReview (pm : PageOracle) (target : String)
    (rating : Option Int) (comment : String) : Bool × List PubAction :=
  let opened := [PubAction.goto target]
  let rated := opened ++ ratingTrace pm imdbRatingSelectors rating
  let fillRes := fillFirstAvailable pm imdbFillSelectors comment
  let filledTrace := rated ++ fillTrace pm imdbFillSelectors comment
  if !fillRes.1 then (false, filledTrace)
  else
    let subRes := clickFirstAvailable pm imdbSubmitSelectors
    let subTrace := filledTrace ++ clickTrace pm imdbSubmitSelectors
    if !subRes.1 then (false, subTrace)
    else (true, subTrace ++ [PubAction.waitMs 1500])

/-- The publisher's terminal state for one `(record, destination)` pair. -/
inductive Outcome where
  | skippedNoMapping
  | skippedNoComment
  | posted
  | failed
deriving DecidableEq

/-- One iteration of the `process_goodreads` loop: skip when the mapping
yields no truthy target URL, skip when the comment is empty after
stripping, otherwise replay the review (the caught posting exception is
the `failed` outcome). -/
def processGoodreadsItem (pm : PageOracle) (mapping : List (String × String))
    (item : PubItem) : Outcome × List PubAction :=
  let tu := (getTargetUrl mapping item).getD ""
  if tu = "" then (.skippedNoMapping, [])
  else
    let comment := pyStrip (pyOrStr item.comment item.comment_en)
    if comment = "" then (.skippedNoComment, [])
    else
      let rating := convertRatingForGoodreads item.rating
      let r := postGoodreadsReview pm tu rating comment
      (if r.1 then .posted else .failed, r.2)

/-- One iteration of the `process_imdb` loop. -/
def processImdbItem (pm : PageOracle) (mapping : List (String × String))
    (item : PubItem) : Outcome × List PubAction :=
  let tu := (getTargetUrl mapping item).getD ""
  if tu = "" then (.skippedNoMapping, [])
  else
    let comment := pyStrip (pyOrStr item.comment item.comment_en)
    if comment = "" then (.skippedNoComment, [])
    else
      let rating := convertRatingForImdb item.rating
      let r := postImdbReview pm tu rating comment
      (if r.1 then .posted else .failed, r.2)

/-! ## Concrete oracles and items for witnesses and counterexamples -/

/-- A structured oracle whose every call raises (transport failure or
unparseable content). -/
def errStruct : StructOracle := fun _ _ _ _ => Except.error ()

/-- A free-text oracle that translates by tagging. -/
def okText : TextOracle := fun s => Except.ok ("EN " ++ s)

/-- A free-text oracle whose every call raises. -/
def errText : TextOracle := fun _ => Except.error ()

/-- A structured oracle that returns a well-formed response whose
`comment_en` is non-empty regardless of the input comment. -/
def hallucinatingOracle : StructOracle := fun _ _ _ _ =>
  Except.ok (.dict
    [("title_en", .str "Dream of the Red Chamber"),
     ("comment_en", .str "A hallucinated review"),
     ("people_en", .list [])])

/-- A structured oracle that returns two people names regardless of how
many were in the payload. -/
def twoNameOracle : StructOracle := fun _ _ _ _ =>
  Except.ok (.dict
    [("title_en", .str "T"), ("comment_en", .str "C"),
     ("people_en", .list [.str "A", .str "B"])])

/-- A sample raw book record. -/
def sampleItem : RawItem :=
  { category := some "book"
    title_zh := some "红楼梦"
    comment_zh := some "好书"
    authors_zh := some ["曹雪芹"]
    directors_zh := none
    subject_url := some "https://book.douban.com/subject/1007305/"
    rating := some 5 }

/-! ## Rating-pattern lemmas (douban_crawl.py) -/

/-- A class token contains a match of the pattern `rating(\d+)-t`:
somewhere in it, the literal `rating`, a nonempty digit run, then `-t`. -/
def hasRatingPattern (c : String) : Prop :=
  ∃ p ds post : List Char,
    c.toList = p ++ "rating".toList ++ ds ++ '-' :: 't' :: post ∧
    ds ≠ [] ∧ ∀ d ∈ ds, d.isDigit = true

lemma takeWhile_digit_append (ds post : List Char)
    (h : ∀ d ∈ ds, d.isDigit = true) :
    (ds ++ '-' :: post).takeWhile Char.isDigit = ds := by
  induction ds with
  | nil => simp [List.takeWhile]
  | cons d ds ih =>
    have hd : d.isDigit = true := h d (by simp)
    simp only [List.cons_append, List.takeWhile_cons, hd]
    simp [ih (fun x hx => h x (by simp [hx]))]

lemma matchRatingAt_of_decomp (ds post : List Char) (hne : ds ≠ [])
    (hdig : ∀ d ∈ ds, d.isDigit = true) :
    matchRatingAt ("rating".toList ++ ds ++ '-' :: 't' :: post)
      = some (digitsToNat ds) := by
  have h1 : ("rating".toList ++ ds ++ '-' :: 't' :: post).take 6 = "rating".toList := by
    rw [show (6 : Nat) = ("rating".toList).length from rfl]
    exact List.take_left _ _
  have h2 : ("rating".toList ++ ds ++ '-' :: 't' :: post).drop 6 = ds ++ '-' :: 't' :: post := by
    rw [show (6 : Nat) = ("rating".toList).length from rfl]
    exact List.drop_left _ _
  have h3 : (ds ++ '-' :: 't' :: post).takeWhile Char.isDigit = ds :=
    takeWhile_digit_append ds ('t' :: post) hdig
  simp only [matchRatingAt]
  rw [if_pos h1, h2, h3, if_neg hne, List.drop_left]
  simp

lemma drop_length_takeWhile (p : Char → Bool) (l : List Char) :
    l.drop (l.takeWhile p).length = l.dropWhile p := by
  induction l with
  | nil => rfl
  | cons a l ih =>
    by_cases h : p a <;>
      simp [List.takeWhile_cons, List.dropWhile_cons, h, ih]

lemma matchRatingAt_some_decomp (s : List Char) (n : Nat)
    (h : matchRatingAt s = some n) :
    ∃ ds post : List Char,
      s = "rating".toList ++ ds ++ '-' :: 't' :: post ∧
      ds ≠ [] ∧ (∀ d ∈ ds, d.isDigit = true) ∧ n = digitsToNat ds := by
  simp only [matchRatingAt] at h
  by_cases h1 : s.take 6 = "rating".toList
  · rw [if_pos h1] at h
    by_cases h2 : (s.drop 6).takeWhile Char.isDigit = []
    · rw [if_pos h2] at h; exact absurd h (by simp)
    · rw [if_neg h2] at h
      by_cases h3 :
          ((s.drop 6).drop ((s.drop 6).takeWhile Char.isDigit).length).take 2 = ['-', 't']
      · rw [if_pos h3] at h
        have hr : s.drop 6
            = (s.drop 6).takeWhile Char.isDigit ++ (s.drop 6).dropWhile Char.isDigit :=
          (List.takeWhile_append_dropWhile Char.isDigit (s.drop 6)).symm
        rw [drop_length_takeWhile Char.isDigit (s.drop 6)] at h3
        have hpost : (s.drop 6).dropWhile Char.isDigit
            = '-' :: 't' :: ((s.drop 6).dropWhile Char.isDigit).drop 2 := by
          conv_lhs =>
            rw [← List.take_append_drop 2 ((s.drop 6).dropWhile Char.isDigit)]
          rw [h3]
          rfl
        refine ⟨(s.drop 6).takeWhile Char.isDigit,
          ((s.drop 6).dropWhile Char.isDigit).drop 2, ?_, h2,
          fun d hd => List.mem_takeWhile_imp hd, (Option.some_inj.mp h).symm⟩
        conv_lhs => rw [← List.take_append_drop 6 s]
        rw [h1]
        conv_lhs => rw [hr, hpost]
        simp
      · rw [if_neg h3] at h; exact absurd h (by simp)
  · rw [if_neg h1] at h
    exact absurd h (by simp)

lemma findRating_isSome_iff (s : List Char) :
    (findRating s).isSome = true ↔
      ∃ p ds post : List Char,
        s = p ++ "rating".toList ++ ds ++ '-' :: 't' :: post ∧
        ds ≠ [] ∧ ∀ d ∈ ds, d.isDigit = true := by
  induction s with
  | nil =>
    constructor
    · intro h; exact absurd h (by simp [findRating])
    · rintro ⟨p, ds, post, habs, -, -⟩
      exact absurd habs (by simp)
  | cons c cs ih =>
    rw [findRating]
    cases hm : matchRatingAt (c :: cs) with
    | some n =>
      simp only [Option.isSome_some, true_iff]
      obtain ⟨ds, post, hdec, hne, hdig, -⟩ := matchRatingAt_some_decomp _ _ hm
      exact ⟨[], ds, post, by simpa using hdec, hne, hdig⟩
    | none =>
      rw [ih]
      constructor
      · rintro ⟨p, ds, post, hdec, hne, hdig⟩
        exact ⟨c :: p, ds, post, by simp [hdec], hne, hdig⟩
      · rintro ⟨p, ds, post, hdec, hne, hdig⟩
        cases p with
        | nil =>
          exfalso
          rw [List.nil_append] at hdec
          rw [hdec, matchRatingAt_of_decomp ds post hne hdig] at hm
          exact absurd hm (by simp)
        | cons x p =>
          simp only [List.cons_append] at hdec
          injection hdec with hx hrest
          exact ⟨p, ds, post, hrest, hne, hdig⟩

lemma findRating_none_iff (s : List Char) :
    findRating s = none ↔
      ¬ ∃ p ds post : List Char,
        s = p ++ "rating".toList ++ ds ++ '-' :: 't' :: post ∧
        ds ≠ [] ∧ ∀ d ∈ ds, d.isDigit = true := by
  rw [← findRating_isSome_iff]
  cases findRating s <;> simp

lemma extractRating_none_iff (cls : List String) :
    extractRatingFromClasses cls = none ↔ ∀ c ∈ cls, ¬ hasRatingPattern c := by
  induction cls with
  | nil => simp [extractRatingFromClasses]
  | cons c cs ih =>
    rw [extractRatingFromClasses]
    cases hf : findRating c.toList with
    | some n =>
      constructor
      · intro h; exact absurd h (by simp)
      · intro hall
        have hpat : hasRatingPattern c :=
          (findRating_isSome_iff c.toList).mp (by rw [hf]; rfl)
        exact absurd hpat (hall c (by simp))
    | none =>
      rw [ih]
      constructor
      · intro hall x hx
        rcases List.mem_cons.mp hx with hx | hx
        · subst hx
          intro hpat
          have hs : (findRating x.toList).isSome = true :=
            (findRating_isSome_iff x.toList).mpr hpat
          rw [hf] at hs
          exact absurd hs (by simp)
        · exact hall x hx
      · intro hall x hx
        exact hall x (List.mem_cons_of_mem _ hx)

lemma extractRating_first (pre : List String) (c : String) (post : List String)
    (n : Nat) (hpre : ∀ x ∈ pre, ¬ hasRatingPattern x)
    (hc : findRating c.toList = some n) :
    extractRatingFromClasses (pre ++ c :: post) = some n := by
  induction pre with
  | nil =>
    simp only [List.nil_append, extractRatingFromClasses, hc]
  | cons x pre ih =>
    have hx : findRating x.toList = none := by
      rw [findRating_none_iff]
      exact fun hpat => hpre x (by simp) hpat
    simp only [List.cons_append, extractRatingFromClasses, hx]
    exact ih fun y hy => hpre y (by simp [hy])

/-! ## Mapping lemmas (search.py / import_data.py) -/

lemma lookupA_append (m₁ m₂ : List (String × String)) (key : String) :
    lookupA (m₁ ++ m₂) key =
      match lookupA m₁ key with
      | some v => some v
      | none => lookupA m₂ key := by
  induction m₁ with
  | nil => rfl
  | cons a m ih =>
    by_cases ha : a.1 = key <;> simp [lookupA, ha, ih]

lemma lookupA_replace (m : List (String × String)) (k v key : String) :
    lookupA (m.map (fun p => if p.1 = k then (k, v) else p)) key =
      if key = k then ((lookupA m k).map fun _ => v) else lookupA m key := by
  induction m with
  | nil => by_cases hk : key = k <;> simp [lookupA, hk]
  | cons a m ih =>
    simp only [List.map_cons]
    by_cases ha : a.1 = k
    · rw [if_pos ha, lookupA]
      by_cases hk : key = k
      · subst hk
        rw [if_pos rfl, if_pos rfl, lookupA, if_pos ha]
        rfl
      · rw [if_neg (fun hkk : k = key => hk hkk.symm), ih, if_neg hk, if_neg hk,
          lookupA, if_neg (fun hay : a.1 = key => hk (ha ▸ hay).symm)]
    · rw [if_neg ha, lookupA]
      by_cases hak : a.1 = key
      · rw [if_pos hak]
        by_cases hk : key = k
        · exact absurd (hk ▸ hak) ha
        · rw [if_neg hk, lookupA, if_pos hak]
      · rw [if_neg hak, ih]
        by_cases hk : key = k
        · subst hk
          rw [if_pos rfl, if_pos rfl, lookupA, if_neg ha]
        · rw [if_neg hk, if_neg hk, lookupA, if_neg hak]

lemma lookupA_insertA (m : List (String × String)) (k v key : String) :
    lookupA (insertA m k v) key = if key = k then some v else lookupA m key := by
  rw [insertA]
  by_cases hp : (lookupA m k).isSome
  · rw [if_pos hp, lookupA_replace]
    by_cases hk : key = k
    · subst hk
      obtain ⟨v', hv⟩ := Option.isSome_iff_exists.mp hp
      rw [if_pos rfl, if_pos rfl, hv]
      rfl
    · rw [if_neg hk, if_neg hk]
  · rw [if_neg hp]
    have hnone : lookupA m k = none := Option.not_isSome_iff_eq_none.mp hp
    rw [lookupA_append]
    by_cases hk : key = k
    · subst hk
      rw [hnone]
      simp [lookupA]
    · cases hm : lookupA m key <;>
        simp [lookupA, hm, hk, show ¬ k = key from fun hkk => hk hkk.symm]

lemma lookupA_insertA_isSome (m : List (String × String)) (k v key : String)
    (h : (lookupA m key).isSome) : (lookupA (insertA m k v) key).isSome := by
  rw [lookupA_insertA]
  by_cases hk : key = k
  · rw [if_pos hk]; rfl
  · rw [if_neg hk]; exact h

/-! ## Resolver lemmas -/

lemma grStep_skip (search : SearchOracle) (st : ResolveState) (item : GrItem)
    (src : String) (h1 : item.subject_url = some src)
    (h2 : (lookupA st.1 src).isSome) : grStep search false st item = st := by
  simp only [grStep, h1]
  by_cases hs : src = ""
  · rw [if_pos hs]
  · rw [if_neg hs, if_pos (by simp [h2])]

lemma imdbStep_skip (search : SearchOracle) (st : ResolveState) (item : ImdbItem)
    (src : String) (h1 : item.subject_url = some src)
    (h2 : (lookupA st.1 src).isSome) : imdbStep search false st item = st := by
  simp only [imdbStep, h1]
  by_cases hs : src = ""
  · rw [if_pos hs]
  · rw [if_neg hs, if_pos (by simp [h2])]

lemma grStep_preserves (search : SearchOracle) (st : ResolveState) (item : GrItem)
    (s v : String) (h : lookupA st.1 s = some v) :
    lookupA (grStep search false st item).1 s = some v := by
  cases hurl : item.subject_url with
  | none => simp only [grStep, hurl]; exact h
  | some src =>
    simp only [grStep, hurl]
    by_cases hs : src = ""
    · rw [if_pos hs]; exact h
    · rw [if_neg hs]
      by_cases hin : (lookupA st.1 src).isSome
      · rw [if_pos (by simp [hin])]; exact h
      · rw [if_neg (by simp [hin])]
        cases hres : search (grTitle item) (grAuthor item) with
        | none => exact h
        | some t =>
          dsimp only
          by_cases ht : t = ""
          · rw [if_neg (fun hn : t ≠ "" => hn ht)]; exact h
          · rw [if_pos ht]
            have hne : s ≠ src := by
              intro he
              rw [← he, h] at hin
              exact hin rfl
            show lookupA (insertA st.1 src t) s = some v
            rw [lookupA_insertA, if_neg hne]
            exact h

lemma imdbStep_preserves (search : SearchOracle) (st : ResolveState) (item : ImdbItem)
    (s v : String) (h : lookupA st.1 s = some v) :
    lookupA (imdbStep search false st item).1 s = some v := by
  cases hurl : item.subject_url with
  | none => simp only [imdbStep, hurl]; exact h
  | some src =>
    simp only [imdbStep, hurl]
    by_cases hs : src = ""
    · rw [if_pos hs]; exact h
    · rw [if_neg hs]
      by_cases hin : (lookupA st.1 src).isSome
      · rw [if_pos (by simp [hin])]; exact h
      · rw [if_neg (by simp [hin])]
        cases hres : search (imdbTitle item) (imdbDirector item) with
        | none => exact h
        | some t =>
          dsimp only
          by_cases ht : t = ""
          · rw [if_neg (fun hn : t ≠ "" => hn ht)]; exact h
          · rw [if_pos ht]
            have hne : s ≠ src := by
              intro he
              rw [← he, h] at hin
              exact hin rfl
            show lookupA (insertA st.1 src t) s = some v
            rw [lookupA_insertA, if_neg hne]
            exact h

lemma buildGr_preserves (search : SearchOracle) (items : List GrItem) :
    ∀ (st : ResolveState) (s v : String), lookupA st.1 s = some v →
      lookupA (items.foldl (grStep search false) st).1 s = some v := by
  induction items with
  | nil => intro st s v h; exact h
  | cons item items ih =>
    intro st s v h
    rw [List.foldl_cons]
    exact ih _ s v (grStep_preserves search st item s v h)

lemma buildImdb_preserves (search : SearchOracle) (items : List ImdbItem) :
    ∀ (st : ResolveState) (s v : String), lookupA st.1 s = some v →
      lookupA (items.foldl (imdbStep search false) st).1 s = some v := by
  induction items with
  | nil => intro st s v h; exact h
  | cons item items ih =>
    intro st s v h
    rw [List.foldl_cons]
    exact ih _ s v (imdbStep_preserves search st item s v h)

lemma grStep_isSome (search : SearchOracle) (overwrite : Bool) (st : ResolveState)
    (item : GrItem) (s : String) (h : (lookupA st.1 s).isSome) :
    (lookupA (grStep search overwrite st item).1 s).isSome := by
  cases hurl : item.subject_url with
  | none => simp only [grStep, hurl]; exact h
  | some src =>
    simp only [grStep, hurl]
    by_cases hs : src = ""
    · rw [if_pos hs]; exact h
    · rw [if_neg hs]
      by_cases hskip : ((lookupA st.1 src).isSome && !overwrite) = true
      · rw [if_pos hskip]; exact h
      · rw [if_neg hskip]
        cases hres : search (grTitle item) (grAuthor item) with
        | none => exact h
        | some t =>
          dsimp only
          by_cases ht : t = ""
          · rw [if_neg (fun hn : t ≠ "" => hn ht)]; exact h
          · rw [if_pos ht]
            exact lookupA_insertA_isSome st.1 src t s h

lemma imdbStep_isSome (search : SearchOracle) (overwrite : Bool) (st : ResolveState)
    (item : ImdbItem) (s : String) (h : (lookupA st.1 s).isSome) :
    (lookupA (imdbStep search overwrite st item).1 s).isSome := by
  cases hurl : item.subject_url with
  | none => simp only [imdbStep, hurl]; exact h
  | some src =>
    simp only [imdbStep, hurl]
    by_cases hs : src = ""
    · rw [if_pos hs]; exact h
    · rw [if_neg hs]
      by_cases hskip : ((lookupA st.1 src).isSome && !overwrite) = true
      · rw [if_pos hskip]; exact h
      · rw [if_neg hskip]
        cases hres : search (imdbTitle item) (imdbDirector item) with
        | none => exact h
        | some t =>
          dsimp only
          by_cases ht : t = ""
          · rw [if_neg (fun hn : t ≠ "" => hn ht)]; exact h
          · rw [if_pos ht]
            exact lookupA_insertA_isSome st.1 src t s h

lemma grStep_null_search (search : SearchOracle) (overwrite : Bool)
    (st : ResolveState) (item : GrItem)
    (hnull : search (grTitle item) (grAuthor item) = none) :
    (grStep search overwrite st item).1 = st.1 := by
  cases hurl : item.subject_url with
  | none => simp only [grStep, hurl]
  | some src =>
    simp only [grStep, hurl]
    by_cases hs : src = ""
    · rw [if_pos hs]
    · rw [if_neg hs]
      by_cases hskip : ((lookupA st.1 src).isSome && !overwrite) = true
      · rw [if_pos hskip]
      · rw [if_neg hskip, hnull]

lemma imdbStep_null_search (search : SearchOracle) (overwrite : Bool)
    (st : ResolveState) (item : ImdbItem)
    (hnull : search (imdbTitle item) (imdbDirector item) = none) :
    (imdbStep search overwrite st item).1 = st.1 := by
  cases hurl : item.subject_url with
  | none => simp only [imdbStep, hurl]
  | some src =>
    simp only [imdbStep, hurl]
    by_cases hs : src = ""
    · rw [if_pos hs]
    · rw [if_neg hs]
      by_cases hskip : ((lookupA st.1 src).isSome && !overwrite) = true
      · rw [if_pos hskip]
      · rw [if_neg hskip, hnull]

/-! ## load_mapping invariant: every stored key and value is nonempty -/

lemma loadMapping_aux_nonempty (rows : List (Option MapRow)) :
    ∀ (m : List (String × String)),
      (∀ k v, lookupA m k = some v → k ≠ "" ∧ v ≠ "") →
      ∀ k v,
        lookupA
          (rows.foldl
            (fun m r =>
              match r with
              | none => m
              | some row =>
                match pyOrOpt row.subject_url row.source,
                    pyOrOpt row.target_url row.target with
                | some s, some d => if s ≠ "" ∧ d ≠ "" then insertA m s d else m
                | _, _ => m)
            m) k = some v → k ≠ "" ∧ v ≠ "" := by
  induction rows with
  | nil => intro m hm k v h; exact hm k v h
  | cons r rows ih =>
    intro m hm k v
    rw [List.foldl_cons]
    refine ih _ ?_ k v
    intro k' v' h'
    cases r with
    | none => exact hm k' v' h'
    | some row =>
      cases hso : pyOrOpt row.subject_url row.source with
      | none => simp only [hso] at h'; exact hm k' v' h'
      | some s =>
        cases hta : pyOrOpt row.target_url row.target with
        | none => simp only [hso, hta] at h'; exact hm k' v' h'
        | some d =>
          simp only [hso, hta] at h'
          by_cases hcond : s ≠ "" ∧ d ≠ ""
          · rw [if_pos hcond, lookupA_insertA] at h'
            by_cases hk : k' = s
            · rw [if_pos hk] at h'
              exact ⟨hk ▸ hcond.1, (Option.some_inj.mp h') ▸ hcond.2⟩
            · rw [if_neg hk] at h'
              exact hm k' v' h'
          · rw [if_neg hcond] at h'
            exact hm k' v' h'

/-- Every binding `load_mapping` produces has a nonempty key and a
nonempty value (rows with a falsy source or target are dropped), so the
publisher's mapping never maps to `""` and never has the key `""`. -/
lemma loadMapping_nonempty (rows : List (Option MapRow)) (k v : String)
    (h : lookupA (loadMapping rows) k = some v) : k ≠ "" ∧ v ≠ "" := by
  refine loadMapping_aux_nonempty rows [] ?_ k v h
  intro k' v' h'
  exact absurd h' (by simp [lookupA])


/-! ## Selector-fallback lemmas (import_data.py) -/

lemma clickFirstAvailable_eq (pm : PageOracle) (sels : List String) :
    clickFirstAvailable pm sels =
      (sels.any pm,
       sels.takeWhile (fun s => !pm s) ++ (sels.find? pm).toList) := by
  induction sels with
  | nil => rfl
  | cons s rest ih =>
    rw [clickFirstAvailable]
    cases hp : pm s with
    | true =>
      simp [List.any_cons, hp, List.takeWhile_cons, List.find?_cons, hp]
    | false =>
      simp [List.any_cons, hp, List.takeWhile_cons, List.find?_cons, ih]

/-! # The claims -/

/-- C3: rating extraction returns `null` exactly when no class token
matches `rating(\d+)-t`; otherwise it returns the full captured digit
group of the first matching token (`rating4-t` gives 4, `rating45-t`
gives 45, not 4); per item, the rating-bearing element's classes are
consulted first and the container's own classes only when that yields
`null`. -/
theorem rating_extraction_correct (cls span own : List String) :
    (extractRatingFromClasses cls = none ↔ ∀ c ∈ cls, ¬ hasRatingPattern c) ∧
    (∀ (pre : List String) (c : String) (post : List String) (n : Nat),
      (∀ x ∈ pre, ¬ hasRatingPattern x) → findRating c.toList = some n →
      extractRatingFromClasses (pre ++ c :: post) = some n) ∧
    extractRatingFromClasses ["rating4-t"] = some 4 ∧
    extractRatingFromClasses ["rating45-t"] = some 45 ∧
    (∀ r : Nat, extractRatingFromClasses span = some r →
      itemRating (some span) own = some r) ∧
    (extractRatingFromClasses span = none →
      itemRating (some span) own = extractRatingFromClasses own) ∧
    itemRating none own = extractRatingFromClasses own := by
  refine ⟨extractRating_none_iff cls,
    fun pre c post n hpre hc => extractRating_first pre c post n hpre hc,
    by decide, by decide, ?_, ?_, rfl⟩
  · intro r hr
    rw [itemRating, hr]
  · intro hnone
    rw [itemRating, hnone]

/-- C3 witness: the per-span fallback clauses applied at concrete class
lists. -/
theorem rating_extraction_correct_witness :
    itemRating (some ["rating4-t"]) ["rating5-t"] = some 4 ∧
    itemRating (some ["collect"]) ["rating5-t"] = some 5 := by
  refine ⟨?_, ?_⟩
  · have h := (rating_extraction_correct [] ["rating4-t"] ["rating5-t"]).2.2.2.2.1
    exact h 4 (by decide)
  · have h := (rating_extraction_correct [] ["collect"] ["rating5-t"]).2.2.2.2.2.1
    rw [h (by decide)]
    decide

/-- C4 counterexample: `split_people` does not split on the full-width
slash `／` — its separator class is `[、/,，；;]+` — so the claimed
separator set is wrong. -/
theorem split_people_fullwidth_slash_counterexample :
    splitPeople "张三／李四" = ["张三／李四"] ∧
    ¬ splitPeople "张三／李四" = ["张三", "李四"] := by
  constructor <;> decide

/-- C4 (amended): `split_people` splits on the separators `、 / , ， ； ;`
(the full-width slash `／` is NOT a separator), trims whitespace from
each segment, discards empty segments and preserves order; in particular
`"张三 / 李四，王五"` yields `["张三", "李四", "王五"]`. -/
theorem split_people_amended (t s : String) :
    splitPeople "张三 / 李四，王五" = ["张三", "李四", "王五"] ∧
    splitPeople "a、b" = ["a", "b"] ∧
    splitPeople "a/b" = ["a", "b"] ∧
    splitPeople "a,b" = ["a", "b"] ∧
    splitPeople "a，b" = ["a", "b"] ∧
    splitPeople "a；b" = ["a", "b"] ∧
    splitPeople "a;b" = ["a", "b"] ∧
    splitPeople "a／b" = ["a／b"] ∧
    splitPeople " 张三 、、 李四 " = ["张三", "李四"] ∧
    (s ∈ splitPeople t → s ≠ "") := by
    refine ⟨by decide, by decide, by decide, by decide, by decide, by decide,
      by decide, by decide, by decide, ?_⟩
    intro hs
    rw [splitPeople] at hs
    by_cases ht : t = ""
    · rw [if_pos ht] at hs
      exact absurd hs (by simp)
    · rw [if_neg ht] at hs
      exact of_decide_eq_true (List.mem_filter.mp hs).2

/-- C6: destination-A (Goodreads) conversion clamps into 1–5 and keeps
in-range values unchanged; destination-B (IMDb) conversion is
`clamp(rating,1,5) * 2` (3 maps to 6, out-of-range 7 clamps to 5 and
maps to 10); both map `null` to `null`. -/
theorem rating_conversion_correct (r : Int) :
    convertRatingForGoodreads none = none ∧
    convertRatingForImdb none = none ∧
    convertRatingForGoodreads (some r) = some (max 1 (min 5 r)) ∧
    (1 ≤ max 1 (min 5 r) ∧ max 1 (min 5 r) ≤ 5) ∧
    (1 ≤ r → r ≤ 5 → convertRatingForGoodreads (some r) = some r) ∧
    convertRatingForImdb (some r) = some (max 1 (min 5 r) * 2) ∧
    convertRatingForImdb (some 3) = some 6 ∧
    convertRatingForImdb (some 7) = some 10 := by
  refine ⟨rfl, rfl, rfl, ⟨?_, ?_⟩, ?_, rfl, rfl, rfl⟩
  · omega
  · omega
  · intro h1 h5
    rw [convertRatingForGoodreads]
    congr 1
    omega

/-- C8: the click/fill steps try the ordered candidate list left to
right, stop at the first candidate the page resolves (never attempting a
later one), and fail exactly when no candidate resolves; with a list
where only the third matches, the step succeeds having attempted exactly
the first three. -/
theorem selector_fallback_correct (pm : PageOracle) (sels : List String)
    (text : String) :
    (clickFirstAvailable pm sels).1 = sels.any pm ∧
    (clickFirstAvailable pm sels).2
      = sels.takeWhile (fun s => !pm s) ++ (sels.find? pm).toList ∧
    fillFirstAvailable pm sels text = clickFirstAvailable pm sels ∧
    ((clickFirstAvailable pm sels).1 = false ↔ ∀ s ∈ sels, pm s = false) ∧
    clickFirstAvailable (fun s => s == "c") ["a", "b", "c", "d"]
      = (true, ["a", "b", "c"]) := by
  refine ⟨?_, ?_, rfl, ?_, by decide⟩
  · rw [clickFirstAvailable_eq]
  · rw [clickFirstAvailable_eq]
  · rw [clickFirstAvailable_eq]
    simp [List.any_eq_false]

/-- C5: with `overwrite = false`, an item whose `subject_url` is already
mapped changes nothing — the step performs no search query (state,
including the query log, is returned untouched) — and the run leaves the
existing entry's value unchanged whatever the search oracle would
return. -/
theorem resolver_idempotent_without_overwrite (search : SearchOracle)
    (items : List GrItem) (items2 : List ImdbItem)
    (existing : List (String × String)) (s : String) :
    ((lookupA existing s).isSome →
      lookupA (buildGoodreadsMapping search items existing false).1 s
          = lookupA existing s ∧
      lookupA (buildImdbMapping search items2 existing false).1 s
          = lookupA existing s) ∧
    (∀ (st : ResolveState) (item : GrItem), item.subject_url = some s →
      (lookupA st.1 s).isSome → grStep search false st item = st) ∧
    (∀ (st : ResolveState) (item : ImdbItem), item.subject_url = some s →
      (lookupA st.1 s).isSome → imdbStep search false st item = st) := by
  refine ⟨?_, ?_, ?_⟩
  · intro hsome
    obtain ⟨v, hv⟩ := Option.isSome_iff_exists.mp hsome
    constructor
    · rw [hv]
      exact buildGr_preserves search items (existing, []) s v hv
    · rw [hv]
      exact buildImdb_preserves search items2 (existing, []) s v hv
  · exact fun st item h1 h2 => grStep_skip search st item s h1 h2
  · exact fun st item h1 h2 => imdbStep_skip search st item s h1 h2

/-- C10: a resolution run never removes a mapping key (the result's key
set contains the existing one, for either overwrite flag), and an item
whose search yields `null` leaves the mapping component of the state
unchanged — an existing entry keeps its value even with
`overwrite = true`; a run whose every search yields `null` returns the
existing mapping unchanged. -/
theorem resolver_never_removes_keys (search : SearchOracle)
    (items : List GrItem) (items2 : List ImdbItem)
    (existing : List (String × String)) (overwrite : Bool) (s : String) :
    ((lookupA existing s).isSome →
      (lookupA (buildGoodreadsMapping search items existing overwrite).1 s).isSome ∧
      (lookupA (buildImdbMapping search items2 existing overwrite).1 s).isSome) ∧
    (∀ (st : ResolveState) (item : GrItem),
      search (grTitle item) (grAuthor item) = none →
      (grStep search overwrite st item).1 = st.1) ∧
    (∀ (st : ResolveState) (item : ImdbItem),
      search (imdbTitle item) (imdbDirector item) = none →
      (imdbStep search overwrite st item).1 = st.1) ∧
    ((∀ t a, search t a = none) →
      (buildGoodreadsMapping search items existing overwrite).1 = existing ∧
      (buildImdbMapping search items2 existing overwrite).1 = existing) := by
  refine ⟨?_, ?_, ?_, ?_⟩
  · intro hsome
    constructor
    · rw [buildGoodreadsMapping]
      have : ∀ (its : List GrItem) (st : ResolveState),
          (lookupA st.1 s).isSome →
          (lookupA (its.foldl (grStep search overwrite) st).1 s).isSome := by
        intro its
        induction its with
        | nil => intro st h; exact h
        | cons item its ih =>
          intro st h
          rw [List.foldl_cons]
          exact ih _ (grStep_isSome search overwrite st item s h)
      exact this items (existing, []) hsome
    · rw [buildImdbMapping]
      have : ∀ (its : List ImdbItem) (st : ResolveState),
          (lookupA st.1 s).isSome →
          (lookupA (its.foldl (imdbStep search overwrite) st).1 s).isSome := by
        intro its
        induction its with
        | nil => intro st h; exact h
        | cons item its ih =>
          intro st h
          rw [List.foldl_cons]
          exact ih _ (imdbStep_isSome search overwrite st item s h)
      exact this items2 (existing, []) hsome
  · exact fun st item h => grStep_null_search search overwrite st item h
  · exact fun st item h => imdbStep_null_search search overwrite st item h
  · intro hnull
    constructor
    · rw [buildGoodreadsMapping]
      have : ∀ (its : List GrItem) (st : ResolveState),
          (its.foldl (grStep search overwrite) st).1 = st.1 := by
        intro its
        induction its with
        | nil => intro st; rfl
        | cons item its ih =>
          intro st
          rw [List.foldl_cons, ih,
            grStep_null_search search overwrite st item (hnull _ _)]
      exact this items (existing, [])
    · rw [buildImdbMapping]
      have : ∀ (its : List ImdbItem) (st : ResolveState),
          (its.foldl (imdbStep search overwrite) st).1 = st.1 := by
        intro its
        induction its with
        | nil => intro st; rfl
        | cons item its ih =>
          intro st
          rw [List.foldl_cons, ih,
            imdbStep_null_search search overwrite st item (hnull _ _)]
      exact this items2 (existing, [])

/-- C7: with a mapping produced by `load_mapping`, a record whose
`subject_url` has no mapping entry is skipped as no-mapping, and one
whose entry exists but whose comment strips to empty is skipped as
no-comment — in both cases with an empty UI-action trace (no navigation
is attempted), on both destinations. -/
theorem publisher_skip_transitions (pm : PageOracle)
    (rows : List (Option MapRow)) (item : PubItem) :
    ((∀ s, item.subject_url = some s → lookupA (loadMapping rows) s = none) →
      processGoodreadsItem pm (loadMapping rows) item
          = (Outcome.skippedNoMapping, []) ∧
      processImdbItem pm (loadMapping rows) item
          = (Outcome.skippedNoMapping, [])) ∧
    (∀ s v, item.subject_url = some s →
      lookupA (loadMapping rows) s = some v →
      pyStrip (pyOrStr item.comment item.comment_en) = "" →
      processGoodreadsItem pm (loadMapping rows) item
          = (Outcome.skippedNoComment, []) ∧
      processImdbItem pm (loadMapping rows) item
          = (Outcome.skippedNoComment, [])) := by
  constructor
  · intro hnone
    have htu : getTargetUrl (loadMapping rows) item = none := by
      cases hurl : item.subject_url with
      | none => simp only [getTargetUrl, hurl]
      | some s =>
        simp only [getTargetUrl, hurl]
        by_cases hs : s = ""
        · rw [if_neg (by simp [hs])]
        · rw [if_pos hs, hnone s hurl]
    constructor
    · rw [processGoodreadsItem, htu]
      rfl
    · rw [processImdbItem, htu]
      rfl
  · intro s v hurl hv hcomment
    obtain ⟨hs, hvne⟩ := loadMapping_nonempty rows s v hv
    have htu : getTargetUrl (loadMapping rows) item = some v := by
      simp only [getTargetUrl, hurl]
      rw [if_pos hs, hv]
    constructor
    · rw [processGoodreadsItem, htu]
      show (if v = "" then _ else _) = _
      rw [if_neg hvne, hcomment, if_pos rfl]
    · rw [processImdbItem, htu]
      show (if v = "" then _ else _) = _
      rw [if_neg hvne, hcomment, if_pos rfl]

/-! ## Translator claims -/

lemma translatePeopleList_characterization (opn : TextOracle) (people : List String) :
    translatePeopleList opn people = people.filterMap (fun p =>
      if pyStrip p = "" then none
      else some (match opn (pyStrip p) with
                 | Except.ok c => pyStrip c
                 | Except.error _ => pyStrip p)) := by
  induction people with
  | nil => rfl
  | cons p rest ih =>
    by_cases hp : pyStrip p = "" <;>
      simp [translatePeopleList, List.filterMap_cons, hp, ih]

/-- C1 counterexample: with an empty `comment_zh` and a parseable
structured response whose `comment_en` is non-empty, the translation
step returns that non-empty comment — the code does not enforce the
empty-to-empty comment invariant on the structured path. -/
theorem empty_comment_counterexample :
    translateTitleAndComment hallucinatingOracle errText "红楼梦" "" "book" ["曹雪芹"]
      = Except.ok ("Dream of the Red Chamber", "A hallucinated review", []) ∧
    ("A hallucinated review" : String) ≠ "" := by
  constructor
  · rfl
  · decide

/-- C1 (amended): the empty-to-empty comment guarantee holds on the
fallback path: the free-text translator maps empty input to `""` without
a completion call, so whenever the structured response is invalid (a
raise or a malformed shape) an empty `commentSource` yields an empty
`commentTarget`, both at the translation step and in the assembled
output record; a parseable structured response, however, supplies its
`comment_en` field as-is, which is not forced to be empty. -/
theorem empty_comment_empty_on_fallback (oS : StructOracle) (orv opn : TextOracle) :
    translateText orv "" = Except.ok "" ∧
    (∀ (title category : String) (people : List String)
        (r : String × String × List String),
      structuredResult (structCall oS title "" category people) = none →
      translateTitleAndComment oS orv title "" category people = Except.ok r →
      r.2.1 = "") ∧
    (∀ item : RawItem, itemCommentZh item = "" →
      structuredResult (structCall oS (itemTitleZh item) (itemCommentZh item)
        (itemCategory item) (itemPeople item)) = none →
      (processItem oS orv opn item).comment = "") := by
  have hempty : translateText orv "" = Except.ok "" := rfl
  have hA : ∀ (title category : String) (people : List String)
      (r : String × String × List String),
      structuredResult (structCall oS title "" category people) = none →
      translateTitleAndComment oS orv title "" category people = Except.ok r →
      r.2.1 = "" := by
    intro title category people r h hr
    simp only [translateTitleAndComment, h] at hr
    cases hT : translateText orv title with
    | error e =>
      rw [hT] at hr
      exact absurd hr (by simp)
    | ok t =>
      rw [hT] at hr
      dsimp only at hr
      rw [hempty] at hr
      dsimp only at hr
      injection hr with h2
      rw [← h2]
  refine ⟨hempty, hA, ?_⟩
  intro item hc h
  rw [processItem]
  show (catchTrans (translateTitleAndComment oS orv (itemTitleZh item)
    (itemCommentZh item) (itemCategory item) (itemPeople item))).2.1 = ""
  cases htr : translateTitleAndComment oS orv (itemTitleZh item)
      (itemCommentZh item) (itemCategory item) (itemPeople item) with
  | error e => rfl
  | ok r =>
    show r.2.1 = ""
    rw [hc] at h htr
    exact hA (itemTitleZh item) (itemCategory item) (itemPeople item) r h htr

/-- C2: whatever the oracles do, an invalid structured response (raise
or malformed shape) makes the translation step fall back to independent
free-text translation of title and comment with an empty structured
people list, and the per-record loop body still assembles an output
record — a raise inside the fallback is absorbed by the loop's handler,
yielding empty text fields, never an exception. -/
theorem translator_degrades_without_raising (oS : StructOracle)
    (orv opn : TextOracle) (item : RawItem)
    (h : structuredResult (structCall oS (itemTitleZh item) (itemCommentZh item)
      (itemCategory item) (itemPeople item)) = none) :
    translateTitleAndComment oS orv (itemTitleZh item) (itemCommentZh item)
        (itemCategory item) (itemPeople item)
      = fallbackTranslate orv (itemTitleZh item) (itemCommentZh item) ∧
    processItem oS orv opn item
      = assembleOut opn item
          (catchTrans (fallbackTranslate orv (itemTitleZh item) (itemCommentZh item))) := by
  have h1 : translateTitleAndComment oS orv (itemTitleZh item) (itemCommentZh item)
      (itemCategory item) (itemPeople item)
      = fallbackTranslate orv (itemTitleZh item) (itemCommentZh item) := by
    simp only [translateTitleAndComment, h, fallbackTranslate]
  exact ⟨h1, by rw [processItem, h1]⟩

/-- C2 witness: a structured oracle that always raises, at a concrete
book record. -/
theorem translator_degrades_witness :
    translateTitleAndComment errStruct okText (itemTitleZh sampleItem)
        (itemCommentZh sampleItem) (itemCategory sampleItem) (itemPeople sampleItem)
      = fallbackTranslate okText (itemTitleZh sampleItem) (itemCommentZh sampleItem) ∧
    processItem errStruct okText okText sampleItem
      = assembleOut okText sampleItem
          (catchTrans (fallbackTranslate okText (itemTitleZh sampleItem)
            (itemCommentZh sampleItem))) :=
  translator_degrades_without_raising errStruct okText okText sampleItem rfl

/-- C9 counterexample: on a successful structured call the code takes
the oracle's `people_en` list as-is — here two names for a one-name
`peopleSource` — so `peopleTarget` is not forced to have the same length
as `peopleSource`. -/
theorem people_length_counterexample :
    translateTitleAndComment twoNameOracle errText "活着" "好" "book" ["余华"]
      = Except.ok ("T", "C", ["A", "B"]) ∧
    (["A", "B"] : List String).length ≠ (["余华"] : List String).length := by
  constructor
  · rfl
  · decide

/-- C9 (amended): on a successful structured call `peopleTarget` is
exactly the oracle-returned `people_en` (its string entries, stripped,
order preserved — the length is whatever the oracle returned); when the
structured call fails or is malformed the step returns an empty people
list, and the per-name fallback translates each nonempty `peopleSource`
entry independently, a per-name raise degrading that single name to its
stripped original form. -/
theorem people_translation_amended (oS : StructOracle) (orv opn : TextOracle) :
    (∀ (title comment category : String) (people : List String)
        (r : String × String × List String),
      structuredResult (structCall oS title comment category people) = some r →
      translateTitleAndComment oS orv title comment category people = Except.ok r) ∧
    (∀ (title comment category : String) (people : List String)
        (r : String × String × List String),
      structuredResult (structCall oS title comment category people) = none →
      translateTitleAndComment oS orv title comment category people = Except.ok r →
      r.2.2 = ([] : List String)) ∧
    (∀ people : List String, translatePeopleList opn people
      = people.filterMap (fun p =>
          if pyStrip p = "" then none
          else some (match opn (pyStrip p) with
                     | Except.ok c => pyStrip c
                     | Except.error _ => pyStrip p))) ∧
    (∀ p : String, pyStrip p ≠ "" → opn (pyStrip p) = Except.error () →
      translatePeopleList opn [p] = [pyStrip p]) := by
  refine ⟨?_, ?_, fun people => translatePeopleList_characterization opn people, ?_⟩
  · intro title comment category people r h
    simp only [translateTitleAndComment, h]
  · intro title comment category people r h hr
    simp only [translateTitleAndComment, h] at hr
    cases hT : translateText orv title with
    | error e =>
      rw [hT] at hr
      exact absurd hr (by simp)
    | ok t =>
      rw [hT] at hr
      dsimp only at hr
      cases hC : translateText orv comment with
      | error e =>
        rw [hC] at hr
        exact absurd hr (by simp)
      | ok c =>
        rw [hC] at hr
        dsimp only at hr
        injection hr with h2
        rw [← h2]
  · intro p hp hperr
    simp only [translatePeopleList, if_neg hp, hperr]
